import Mathlib

/-!
Verification of the winboat-bridge remote-command-execution bridge
(`src/main.rs`) against its natural-language specification.

The development shallowly embeds the parts of the program the claims are
about:

* the server's per-connection intake (`handle_connection`, first read and
  the quit/exit decision) and the accept loop of `server_mode`;
* the client's connect / handshake-verify / bootstrap retry loop
  (`client_mode`);
* the `bootstrap_server` routine, as a function of the outcomes of its
  fallible operations;
* a small-step interleaving model of the concurrent session choreography
  of `handle_connection` after the process is spawned: the two
  pipe-reading producer tasks, the bounded (capacity 32) mpsc channel,
  the socket-writer task, the socket read-side disconnect monitor, and
  the exit-vs-kill race of the main task.

Effectful library operations (UTF-8 lossy decoding, the OS pipe, socket
reads and writes) are abstracted as inputs to the embedded functions; the
control flow and data flow of the Rust source are translated directly.
-/

namespace WinboatBridge

/-! ### ASCII case-insensitive comparison (Rust `str::eq_ignore_ascii_case`) -/

/-- Lower-case an ASCII letter, leave every other character alone
(Rust `u8::to_ascii_lowercase`, lifted to chars; the strings involved
are compared bytewise in Rust, which coincides with charwise comparison). -/
def asciiLower (c : Char) : Char :=
  if 'A' ≤ c ∧ c ≤ 'Z' then Char.ofNat (c.toNat + 32) else c

/-- Rust `str::eq_ignore_ascii_case`. -/
def eqIgnoreAsciiCase (a b : String) : Bool :=
  a.data.map asciiLower == b.data.map asciiLower

/-- Rust `str::trim`: drop leading and trailing whitespace (restricted
to the common whitespace characters; the claims involve none of the
exotic Unicode whitespace code points). -/
def rustTrim (s : String) : String :=
  ⟨((s.data.dropWhile Char.isWhitespace).reverse.dropWhile Char.isWhitespace).reverse⟩

/-- The quit/exit test of `handle_connection` (src/main.rs:310):
`command_line.eq_ignore_ascii_case("quit") || command_line.eq_ignore_ascii_case("exit")`. -/
def isQuitExit (commandLine : String) : Bool :=
  eqIgnoreAsciiCase commandLine "quit" || eqIgnoreAsciiCase commandLine "exit"

/-! ### Per-connection intake (`handle_connection` up to the spawn decision,
and the handshake write done by the accept handler in `server_mode`) -/

/-- The bytes of the handshake token `b"READY\n"` (src/main.rs:213). -/
def readyBytes : List Nat := [82, 69, 65, 68, 89, 10]

/-- Observable actions of the accept handler and of `handle_connection`
up to (and including) the spawn decision. -/
inductive ConnEvent where
  | writeBytes (b : List Nat)
  | flushSock
  | readSock
  | notifyShutdown
  | spawnProc (commandLine : String)
deriving DecidableEq

/-- `handle_connection` (src/main.rs:299-331) up to the spawn decision,
as the list of observable actions it performs.  `n` is the byte count
returned by the first socket read and `decoded` the lossy UTF-8 decoding
of the bytes read (the decode itself is a library call, abstracted as an
input). -/
def handle_connection (n : Nat) (decoded : String) : List ConnEvent :=
  .readSock ::
    (if n = 0 then []
     else
       let command_line := rustTrim decoded
       if isQuitExit command_line then [.notifyShutdown]
       else [.spawnProc command_line])

/-- Whether a connection event is a process spawn. -/
def isSpawn : ConnEvent → Bool
  | .spawnProc _ => true
  | _ => false

/-- The per-connection task spawned by the accept loop
(src/main.rs:211-222): write `READY\n`, return on write failure,
flush (result ignored), then run `handle_connection`.  `writeOk` is the
outcome of the handshake write. -/
def accept_handler (writeOk : Bool) (n : Nat) (decoded : String) : List ConnEvent :=
  if writeOk then .writeBytes readyBytes :: .flushSock :: handle_connection n decoded
  else [.writeBytes readyBytes]

/-- Platform shell invocation built by `handle_connection`
(src/main.rs:319-326): program and argument list handed to
`Command::new(shell).arg(flag).arg(&command_line)`. -/
def shellInvocation (windows : Bool) (commandLine : String) : String × List String :=
  if windows then ("cmd", ["/C", commandLine]) else ("sh", ["-c", commandLine])

/-! ### The accept loop of `server_mode` (src/main.rs:201-230)

Each loop iteration resolves the `select!` to either the shutdown
signal (then the loop breaks) or an accept result (a successful accept
spawns a session, a failed accept is logged and the loop continues). -/

/-- Outcome of one resolved `select!` iteration of the accept loop.
A successful accept carries an identifier for the accepted connection. -/
inductive LoopEvent where
  | notified
  | accepted (c : Nat)
  | acceptErr
deriving DecidableEq

/-- The sessions dispatched by the accept loop, in order, for a given
sequence of resolved `select!` outcomes: the loop breaks at the first
shutdown signal and dispatches nothing afterwards. -/
def accept_loop : List LoopEvent → List Nat
  | [] => []
  | .notified :: _ => []
  | .accepted c :: rest => c :: accept_loop rest
  | .acceptErr :: rest => accept_loop rest

/-! ### Client connection loop (`client_mode`, src/main.rs:437-489)

The loop makes at most `max_attempts = 2` connection attempts; each
attempt either fails to connect (outer timeout or connect error), or
yields a connection whose handshake read has one of three outcomes:
the 1-second timeout elapsed, `read_exact` failed (an error, which is
also what a short read produces), or exactly 6 bytes arrived. -/

/-- Result of the 1-second `timeout(read_exact(&mut buf))` handshake
read (src/main.rs:470-473).  `bytes b` is the `Ok(Ok(_))` case, where
`b` is the 6-byte buffer content; a short read surfaces as `ioErr`
because `read_exact` errors on early end-of-stream. -/
inductive HandshakeOutcome where
  | timedOut
  | ioErr
  | bytes (b : List Nat)
deriving DecidableEq

/-- The handshake match of `client_mode` (src/main.rs:475-488): the
connection is accepted only in the `Ok(Ok(_)) if &buf == b"READY\n"`
arm; every other outcome falls to the `_` arm. -/
def handshakeAccepted : HandshakeOutcome → Bool
  | .bytes b => b == readyBytes
  | _ => false

/-- Result of one connection attempt: `noConn` is the `_` arm of the
connect match (timeout or connect error, src/main.rs:456-466); `conn h`
is an established connection whose handshake read had outcome `h`. -/
inductive ConnectOutcome where
  | noConn
  | conn (h : HandshakeOutcome)
deriving DecidableEq

/-- Whether a connection attempt of `client_mode` fails (no connection,
or a connection whose handshake is not accepted). -/
def attemptFails : ConnectOutcome → Bool
  | .noConn => true
  | .conn h => !handshakeAccepted h

/-- Terminal outcome of the client connection loop. -/
inductive ClientResult where
  | connected (attempt : Nat)
  | errConnect
  | errHandshake
  | errBootstrap
deriving DecidableEq

/-- The terminal result produced when the budget is exhausted by a
failed attempt, by failure kind: a connect failure surfaces
`errConnect` (src/main.rs:459-461), a handshake failure surfaces
`errHandshake` (src/main.rs:481-483). -/
def failResult : ConnectOutcome → ClientResult
  | .noConn => .errConnect
  | .conn _ => .errHandshake

/-- Error message of src/main.rs:460. -/
def connectFailMsg : String := "Failed to connect to server after bootstrap attempt"

/-- Error message of src/main.rs:482. -/
def handshakeFailMsg : String := "Handshake failed (Zombie connection?)"

/-- Terminal message the client surfaces for each failure result
(`errBootstrap` propagates the bootstrap error, which is not a fixed
string, hence `none`). -/
def clientErrMsg : ClientResult → Option String
  | .errConnect => some connectFailMsg
  | .errHandshake => some handshakeFailMsg
  | _ => none

/-- `max_attempts` (src/main.rs:445). -/
def maxAttempts : Nat := 2

/-- What one run of the client connection loop produces: the terminal
result, the number of connection attempts made, and the number of
bootstrap invocations made. -/
structure ClientRun where
  result : ClientResult
  attempts : Nat
  boots : Nat
deriving DecidableEq

/-- The connection loop of `client_mode` (src/main.rs:447-489), from a
given value of the `attempt` counter.  `oc a` is the outcome of attempt
number `a`; `bootOk a` tells whether the bootstrap invoked after a
failed attempt `a` succeeds (a failed bootstrap propagates its error
through `?` and ends the operation).  `boots` counts bootstrap
invocations made so far. -/
def client_connect_loop (oc : Nat → ConnectOutcome) (bootOk : Nat → Bool)
    (attempt boots : Nat) : ClientRun :=
  let a := attempt + 1
  match oc a with
  | .conn h =>
    if handshakeAccepted h then ⟨.connected a, a, boots⟩
    else if h2 : maxAttempts ≤ a then ⟨.errHandshake, a, boots⟩
    else if bootOk a then client_connect_loop oc bootOk a (boots + 1)
    else ⟨.errBootstrap, a, boots + 1⟩
  | .noConn =>
    if h2 : maxAttempts ≤ a then ⟨.errConnect, a, boots⟩
    else if bootOk a then client_connect_loop oc bootOk a (boots + 1)
    else ⟨.errBootstrap, a, boots + 1⟩
termination_by maxAttempts - attempt
decreasing_by
  · simp only [maxAttempts] at h2 ⊢; omega
  · simp only [maxAttempts] at h2 ⊢; omega

/-- `client_mode`'s connection phase: the loop started with
`attempt = 0` and no bootstraps made (src/main.rs:444-447). -/
def client_mode (oc : Nat → ConnectOutcome) (bootOk : Nat → Bool) : ClientRun :=
  client_connect_loop oc bootOk 0 0

/-- Two attempt outcomes the handshake match treats the same way:
both fail to connect, or both connect with handshake outcomes that the
`match` classifies identically. -/
def sameShape : ConnectOutcome → ConnectOutcome → Prop
  | .noConn, .noConn => True
  | .conn h, .conn h2 => handshakeAccepted h = handshakeAccepted h2
  | _, _ => False

/-! ### `bootstrap_server` (src/main.rs:509-609)

The routine's fallible operations, in program order: spawning
`evil-winrm` (`spawn()?`), the three stdin writes (`write_all(..)?`,
twice more for the newline and the `exit` line), and the 15-second
`timeout(child.wait())`.  Taking the piped stdin/stdout/stderr handles
cannot fail (they are `Some` by construction), so they are not inputs. -/

/-- Result of `timeout(Duration::from_secs(15), child.wait())`
(src/main.rs:581-584): `exited ok` is `Ok(Ok(status))` with
`ok = status.success()`, `waitErr` is `Ok(Err(_))`, `timedOut` is
`Err(Elapsed)`. -/
inductive WaitOutcome where
  | exited (success : Bool)
  | waitErr
  | timedOut
deriving DecidableEq

/-- Outcomes of the fallible operations `bootstrap_server` performs. -/
structure BootstrapEnv where
  spawnOk : Bool
  writeCmdOk : Bool
  writeNewlineOk : Bool
  writeExitOk : Bool
  waitOutcome : WaitOutcome
deriving DecidableEq

/-- Observable actions of `bootstrap_server`. -/
inductive BootAct where
  | spawnWinrm
  | killWinrm
  | settleSleep (secs : Nat)
deriving DecidableEq

/-- `bootstrap_server` (src/main.rs:509-609) as a function of the
outcomes of its fallible operations: the terminal result together with
the observable actions performed, in order.  A non-success exit status
only prints a diagnostic (src/main.rs:592-594); the timeout arm kills
the local `evil-winrm` and proceeds (src/main.rs:600-603); every
success path ends with the unconditional 5-second settle sleep
(src/main.rs:607). -/
def bootstrap_server (env : BootstrapEnv) : Except String Unit × List BootAct :=
  if !env.spawnOk then (.error "Failed to spawn evil-winrm", [.spawnWinrm])
  else if !env.writeCmdOk then (.error "stdin write failed", [.spawnWinrm])
  else if !env.writeNewlineOk then (.error "stdin write failed", [.spawnWinrm])
  else if !env.writeExitOk then (.error "stdin write failed", [.spawnWinrm])
  else
    match env.waitOutcome with
    | .exited _ => (.ok (), [.spawnWinrm, .settleSleep 5])
    | .waitErr => (.error "Failed to wait for evil-winrm", [.spawnWinrm])
    | .timedOut => (.ok (), [.spawnWinrm, .killWinrm, .settleSleep 5])

/-! ### The concurrent session choreography (`handle_connection` after
spawn, src/main.rs:347-434)

Small-step interleaving model.  The tasks:

* the child process itself, writing chunks into its stdout/stderr OS
  pipes while it is alive;
* the socket read-side monitor (src/main.rs:356-372): end-of-stream or
  error on the socket notifies `kill_notify`;
* two producer tasks (src/main.rs:381-405), each reading chunks from
  one pipe and sending them into the bounded mpsc channel
  (capacity 32, src/main.rs:378) until end-of-file or a send error
  (receiver dropped);
* the writer task (src/main.rs:408-416), receiving chunks in FIFO
  order and writing each to the socket; a write failure notifies
  `kill_notify` and breaks the loop;
* the main task's `select!` (src/main.rs:419-427) racing
  `child.wait()` against `kill_notify.notified()`, killing the child in
  the notified arm, then awaiting the two producers and the writer
  (src/main.rs:430-432).

A chunk is an opaque byte block (the 1024-byte read buffer bounds its
size, which no claim depends on). -/

/-- A byte chunk read from one of the child's pipes. -/
abbrev Chunk := List Nat

/-- Which child stream a chunk came from. -/
inductive Src where
  | sout
  | serr
deriving DecidableEq

/-- State of one session's concurrent choreography. -/
structure Sess where
  /-- Chunks the child will still produce on stdout if left running. -/
  outFut : List Chunk
  /-- Chunks the child will still produce on stderr if left running. -/
  errFut : List Chunk
  /-- Chunks produced on stdout, sitting in the OS pipe, not yet read. -/
  outPipe : List Chunk
  /-- Chunks produced on stderr, sitting in the OS pipe, not yet read. -/
  errPipe : List Chunk
  /-- History: every chunk the child produced on stdout, in order. -/
  prodOut : List Chunk
  /-- History: every chunk the child produced on stderr, in order. -/
  prodErr : List Chunk
  /-- The mpsc channel queue, oldest first (capacity 32). -/
  chan : List (Src × Chunk)
  /-- History: every chunk sent into the channel, in send order. -/
  sent : List (Src × Chunk)
  /-- History: every chunk successfully written to the socket, in order. -/
  delivered : List (Src × Chunk)
  /-- The stdout producer task has returned (EOF or send error). -/
  outDone : Bool
  /-- The stderr producer task has returned. -/
  errDone : Bool
  /-- The writer task has returned (its receiver is then dropped). -/
  writerDone : Bool
  /-- `kill_notify` has been notified. -/
  killReq : Bool
  /-- The child exited naturally (`child.wait()` is ready). -/
  exited : Bool
  /-- `child.kill()` was issued. -/
  killed : Bool
  /-- The main task's `select!` has resolved. -/
  mainResolved : Bool
deriving DecidableEq

/-- The child process is alive: not exited and not killed. -/
def Sess.alive (s : Sess) : Bool := !s.exited && !s.killed

/-- Channel capacity of the transcript channel (src/main.rs:378). -/
def chanCapacity : Nat := 32

/-- Scheduler labels: which task takes its next step. -/
inductive SLabel where
  /-- The child writes its next stdout chunk into the OS pipe. -/
  | childOut
  /-- The child writes its next stderr chunk into the OS pipe. -/
  | childErr
  /-- The stdout producer reads the next pipe chunk and sends it: the
  send succeeds (receiver alive, channel not full), fails (receiver
  dropped, loop breaks), or blocks (channel full: step disabled). -/
  | readOut
  /-- The stdout producer observes EOF (pipe drained, child dead). -/
  | outEof
  | readErr
  | errEof
  /-- The writer receives the oldest chunk and writes it; `ok` is the
  outcome of `write_all`.  Failure notifies `kill_notify` and breaks. -/
  | writeChunk (ok : Bool)
  /-- The writer's `recv` returns `None`: both senders dropped and the
  queue drained; the writer flushes and returns. -/
  | recvNone
  /-- The socket monitor observes EOF or error and notifies `kill_notify`. -/
  | disconnect
  /-- The child exits naturally (all its output already produced). -/
  | childExit
  /-- The `select!` resolves its `child.wait()` arm. -/
  | selectExit
  /-- The `select!` resolves its `kill_notify.notified()` arm: the main
  task kills the child, which then produces nothing further. -/
  | selectKill
deriving DecidableEq

/-- One step of the session: `none` when the labelled task cannot take
that step in state `s`. -/
def stepSess : SLabel → Sess → Option Sess
  | .childOut, s =>
    match s.outFut with
    | c :: rest =>
      if s.alive then
        some { s with outFut := rest, outPipe := s.outPipe ++ [c],
                      prodOut := s.prodOut ++ [c] }
      else none
    | [] => none
  | .childErr, s =>
    match s.errFut with
    | c :: rest =>
      if s.alive then
        some { s with errFut := rest, errPipe := s.errPipe ++ [c],
                      prodErr := s.prodErr ++ [c] }
      else none
    | [] => none
  | .readOut, s =>
    if s.outDone then none
    else
      match s.outPipe with
      | c :: rest =>
        if s.writerDone then
          -- tx.send(..) returns Err as soon as the receiver is dropped,
          -- regardless of queue occupancy; the producer loop breaks.
          some { s with outPipe := rest, outDone := true }
        else if s.chan.length < chanCapacity then
          some { s with outPipe := rest, chan := s.chan ++ [(.sout, c)],
                        sent := s.sent ++ [(.sout, c)] }
        else none
      | [] => none
  | .outEof, s =>
    if !s.outDone && s.outPipe.isEmpty && (s.exited || s.killed) then
      some { s with outDone := true }
    else none
  | .readErr, s =>
    if s.errDone then none
    else
      match s.errPipe with
      | c :: rest =>
        if s.writerDone then
          some { s with errPipe := rest, errDone := true }
        else if s.chan.length < chanCapacity then
          some { s with errPipe := rest, chan := s.chan ++ [(.serr, c)],
                        sent := s.sent ++ [(.serr, c)] }
        else none
      | [] => none
  | .errEof, s =>
    if !s.errDone && s.errPipe.isEmpty && (s.exited || s.killed) then
      some { s with errDone := true }
    else none
  | .writeChunk ok, s =>
    if s.writerDone then none
    else
      match s.chan with
      | c :: rest =>
        if ok then some { s with chan := rest, delivered := s.delivered ++ [c] }
        else some { s with chan := rest, writerDone := true, killReq := true }
      | [] => none
  | .recvNone, s =>
    if !s.writerDone && s.chan.isEmpty && s.outDone && s.errDone then
      some { s with writerDone := true }
    else none
  | .disconnect, s => some { s with killReq := true }
  | .childExit, s =>
    if s.alive && s.outFut.isEmpty && s.errFut.isEmpty then
      some { s with exited := true }
    else none
  | .selectExit, s =>
    if s.exited && !s.mainResolved then some { s with mainResolved := true }
    else none
  | .selectKill, s =>
    if s.killReq && !s.mainResolved then
      some { s with mainResolved := true, killed := true,
                    outFut := [], errFut := [] }
    else none

/-- Run a schedule of labels from a state. -/
def runSess (ls : List SLabel) (s : Sess) : Option Sess :=
  match ls with
  | [] => some s
  | l :: rest =>
    match stepSess l s with
    | some s2 => runSess rest s2
    | none => none

/-- Initial session state right after the spawn: the child will produce
chunk sequences `A` on stdout and `B` on stderr. -/
def initSess (A B : List Chunk) : Sess :=
  { outFut := A, errFut := B, outPipe := [], errPipe := [],
    prodOut := [], prodErr := [], chan := [], sent := [], delivered := [],
    outDone := false, errDone := false, writerDone := false,
    killReq := false, exited := false, killed := false, mainResolved := false }

/-- The session body has fully returned: the `select!` resolved and the
three awaited tasks (stdout producer, stderr producer, writer;
src/main.rs:430-432) have all finished. -/
def Sess.isComplete (s : Sess) : Bool :=
  s.mainResolved && s.outDone && s.errDone && s.writerDone

/-- The stdout chunks among a delivered/sent history, in order. -/
def outChunks (l : List (Src × Chunk)) : List Chunk :=
  (l.filter (fun p => p.1 == Src.sout)).map (fun p => p.2)

/-- The stderr chunks among a delivered/sent history, in order. -/
def errChunks (l : List (Src × Chunk)) : List Chunk :=
  (l.filter (fun p => p.1 == Src.serr)).map (fun p => p.2)

/-- Labels that involve no client-side loss: the socket stays open
(no disconnect) and every socket write succeeds. -/
def clientKeeps : SLabel → Bool
  | .disconnect => false
  | .writeChunk ok => ok
  | _ => true

/-! ## Theorems -/

/-! ### Helper lemmas -/

/-- Once the shutdown signal has been observed, the accept loop
dispatches nothing further. -/
theorem accept_loop_halts (pre post : List LoopEvent)
    (h : LoopEvent.notified ∉ pre) :
    accept_loop (pre ++ LoopEvent.notified :: post) = accept_loop pre := by
  induction pre with
  | nil => simp [accept_loop]
  | cons e rest ih =>
    simp only [List.mem_cons, not_or] at h
    cases e with
    | notified => exact absurd rfl h.1
    | accepted c => simpa [accept_loop] using ih h.2
    | acceptErr => simpa [accept_loop] using ih h.2

/-! ### C1 -/

/-- C1: whenever the first read returns a nonzero byte count and the
trimmed decoded command line equals "quit" or "exit" under the server's
ASCII-case-insensitive comparison, `handle_connection` notifies the
shutdown signal and returns having performed no spawn, and the accept
loop dispatches no session after the iteration in which the shutdown
signal resolves. -/
theorem quit_exit_shuts_down (n : Nat) (decoded : String)
    (hn : n ≠ 0) (hq : isQuitExit (rustTrim decoded) = true)
    (pre post : List LoopEvent) (hpre : LoopEvent.notified ∉ pre) :
    handle_connection n decoded = [.readSock, .notifyShutdown] ∧
    (∀ c, ConnEvent.spawnProc c ∉ handle_connection n decoded) ∧
    accept_loop (pre ++ LoopEvent.notified :: post) = accept_loop pre := by
  have hh : handle_connection n decoded = [.readSock, .notifyShutdown] := by
    simp [handle_connection, hn, hq]
  refine ⟨hh, ?_, accept_loop_halts pre post hpre⟩
  intro c
  rw [hh]
  simp

/-- Witness for C1: the command `"  QUIT  "` (4 bytes read is a stand-in
byte count) shuts the server down, and a loop that sees one accept, the
shutdown signal, then another accept dispatches only the first. -/
theorem quit_exit_shuts_down_witness :
    ((4 : Nat) ≠ 0 ∧ isQuitExit (rustTrim "  QUIT  ") = true ∧
      LoopEvent.notified ∉ [LoopEvent.accepted 7]) ∧
    (handle_connection 4 "  QUIT  " = [.readSock, .notifyShutdown] ∧
      (∀ c, ConnEvent.spawnProc c ∉ handle_connection 4 "  QUIT  ") ∧
      accept_loop ([LoopEvent.accepted 7] ++
        LoopEvent.notified :: [LoopEvent.accepted 8]) =
        accept_loop [LoopEvent.accepted 7]) :=
  ⟨⟨by decide, by decide, by decide⟩,
    quit_exit_shuts_down 4 "  QUIT  " (by decide) (by decide)
      [LoopEvent.accepted 7] [LoopEvent.accepted 8] (by decide)⟩

/-! ### C7 -/

/-- C7: on every accepted connection, the accept handler's first
outbound action writes exactly the 6 bytes "READY\n"; when the write
succeeds it is followed by a flush, and only then does the session read
the socket; a socket read never occurs before position 2 of the action
trace, and no other write occurs in the intake trace. -/
theorem ready_handshake_first (writeOk : Bool) (n : Nat) (decoded : String) :
    (accept_handler writeOk n decoded).head? = some (.writeBytes readyBytes) ∧
    readyBytes.length = 6 ∧
    readyBytes = "READY\n".data.map Char.toNat ∧
    (writeOk = true →
      accept_handler writeOk n decoded =
        .writeBytes readyBytes :: .flushSock :: handle_connection n decoded ∧
      (handle_connection n decoded).head? = some .readSock) ∧
    (∀ i, (accept_handler writeOk n decoded)[i]? = some ConnEvent.readSock →
      2 ≤ i) ∧
    (∀ i b, (accept_handler writeOk n decoded)[i]? =
      some (ConnEvent.writeBytes b) → i = 0) := by
  have hhc : ∃ t, handle_connection n decoded = ConnEvent.readSock :: t ∧
      (∀ e ∈ t, e ≠ ConnEvent.readSock) ∧ (∀ e ∈ t, ∀ b, e ≠ .writeBytes b) := by
    refine ⟨(if n = 0 then []
      else if isQuitExit (rustTrim decoded) then [.notifyShutdown]
      else [.spawnProc (rustTrim decoded)]), ?_, ?_, ?_⟩
    · rfl
    · intro e he
      split at he
      · simp at he
      · split at he <;> simp_all
    · intro e he
      split at he
      · simp at he
      · split at he <;> simp_all
  obtain ⟨t, ht, htr, htw⟩ := hhc
  cases writeOk with
  | false =>
    refine ⟨by simp [accept_handler], by decide, by decide, by simp, ?_, ?_⟩
    · intro i hi
      simp only [accept_handler, if_neg (by decide : ¬False = true)] at hi
      match i with
      | 0 => simp at hi
      | k + 1 => simp at hi
    · intro i b hi
      simp only [accept_handler] at hi
      match i with
      | 0 => rfl
      | k + 1 => simp at hi
  | true =>
    have hacc : accept_handler true n decoded =
        .writeBytes readyBytes :: .flushSock :: ConnEvent.readSock :: t := by
      simp [accept_handler, ht]
    refine ⟨by rw [hacc]; rfl, by decide, by decide,
      fun _ => ⟨by simp [accept_handler], by rw [ht]; rfl⟩, ?_, ?_⟩
    · intro i hi
      rw [hacc] at hi
      match i with
      | 0 => simp at hi
      | 1 => simp at hi
      | k + 2 => omega
    · intro i b hi
      rw [hacc] at hi
      match i with
      | 0 => rfl
      | 1 => simp at hi
      | 2 => simp at hi
      | k + 3 =>
        simp only [List.getElem?_cons_succ] at hi
        exact absurd rfl (htw _ (List.getElem?_mem hi) b)

/-- Witness for C7: at a successful write and the command "dir", the
intake trace is write-READY, flush, read. -/
theorem ready_handshake_first_witness :
    (accept_handler true 3 "dir").head? = some (.writeBytes readyBytes) ∧
    accept_handler true 3 "dir" =
      .writeBytes readyBytes :: .flushSock :: handle_connection 3 "dir" :=
  ⟨(ready_handshake_first true 3 "dir").1,
    ((ready_handshake_first true 3 "dir").2.2.2.1 rfl).1⟩

/-! ### C8 -/

/-- C8: a nonzero read whose decoded text trims to the empty string is
handled as an ordinary command: the session performs exactly one spawn,
of the empty command line, through the same code path as any other
non-quit command, and the platform shell invocation receives the empty
line as the single argument after the shell flag. -/
theorem empty_command_spawns (n : Nat) (decoded : String)
    (hn : n ≠ 0) (he : rustTrim decoded = "") :
    handle_connection n decoded = [.readSock, .spawnProc ""] ∧
    ((handle_connection n decoded).filter isSpawn).length = 1 ∧
    (∀ w, shellInvocation w "" =
      if w then ("cmd", ["/C", ""]) else ("sh", ["-c", ""])) ∧
    (∀ n2 d2, n2 ≠ 0 → isQuitExit (rustTrim d2) = false →
      handle_connection n2 d2 = [.readSock, .spawnProc (rustTrim d2)]) := by
  have hq0 : isQuitExit "" = false := by decide
  have hh : handle_connection n decoded = [.readSock, .spawnProc ""] := by
    simp [handle_connection, hn, he, hq0]
  refine ⟨hh, by rw [hh]; decide, fun w => by cases w <;> rfl, ?_⟩
  intro n2 d2 hn2 hq2
  simp [handle_connection, hn2, hq2]

/-- Witness for C8: a 3-byte all-whitespace read spawns the empty
command. -/
theorem empty_command_spawns_witness :
    ((3 : Nat) ≠ 0 ∧ rustTrim "   " = "") ∧
    handle_connection 3 "   " = [.readSock, .spawnProc ""] :=
  ⟨⟨by decide, by decide⟩,
    (empty_command_spawns 3 "   " (by decide) (by decide)).1⟩

/-! ### Client connection loop: closed form, C5 and C6 -/

/-- Closed form of the client connection loop: attempt 1 either
succeeds, or (after one bootstrap, itself possibly fatal) attempt 2
decides the run. -/
theorem client_mode_eq (oc : Nat → ConnectOutcome) (bootOk : Nat → Bool) :
    client_mode oc bootOk =
      if attemptFails (oc 1) = false then ⟨.connected 1, 1, 0⟩
      else if bootOk 1 = false then ⟨.errBootstrap, 1, 1⟩
      else if attemptFails (oc 2) = false then ⟨.connected 2, 2, 1⟩
      else ⟨failResult (oc 2), 2, 1⟩ := by
  unfold client_mode
  rw [client_connect_loop]
  cases h1 : oc 1 with
  | noConn =>
    simp only [attemptFails, maxAttempts]
    norm_num
    cases hb : bootOk 1 with
    | false => simp
    | true =>
      simp only [if_true]
      rw [client_connect_loop]
      cases h2 : oc 2 with
      | noConn => simp [attemptFails, failResult, maxAttempts]
      | conn h =>
        cases hh : handshakeAccepted h with
        | false => simp [attemptFails, failResult, maxAttempts, hh]
        | true => simp [attemptFails, failResult, maxAttempts, hh]
  | conn h =>
    cases hh : handshakeAccepted h with
    | true => simp [attemptFails, hh]
    | false =>
      simp only [attemptFails, hh, Bool.not_false, maxAttempts]
      norm_num
      cases hb : bootOk 1 with
      | false => simp
      | true =>
        simp only [if_true]
        rw [client_connect_loop]
        cases h2 : oc 2 with
        | noConn => simp [attemptFails, failResult, maxAttempts]
        | conn h4 =>
          cases hh4 : handshakeAccepted h4 with
          | false => simp [attemptFails, failResult, maxAttempts, hh4]
          | true => simp [attemptFails, failResult, maxAttempts, hh4]

/-! ### C5 -/

/-- C5: every client invocation makes at most 2 connection attempts and
at most 1 bootstrap; the run depends only on the outcomes of attempts 1
and 2 and on the first bootstrap (a third attempt or a second bootstrap
never occurs); and a second failure of either kind — the budget being
shared across connect and handshake failures — ends the run as a
failure after exactly 2 attempts and 1 bootstrap. -/
theorem attempt_budget_two (oc : Nat → ConnectOutcome) (bootOk : Nat → Bool) :
    (client_mode oc bootOk).attempts ≤ 2 ∧
    (client_mode oc bootOk).boots ≤ 1 ∧
    (∀ oc2 bootOk2, oc 1 = oc2 1 → oc 2 = oc2 2 → bootOk 1 = bootOk2 1 →
      client_mode oc bootOk = client_mode oc2 bootOk2) ∧
    (attemptFails (oc 1) = true → bootOk 1 = true → attemptFails (oc 2) = true →
      ((client_mode oc bootOk).result = .errConnect ∨
        (client_mode oc bootOk).result = .errHandshake) ∧
      (client_mode oc bootOk).attempts = 2 ∧
      (client_mode oc bootOk).boots = 1) := by
  rw [client_mode_eq]
  refine ⟨?_, ?_, ?_, ?_⟩
  · split
    · simp
    · split
      · simp
      · split <;> simp
  · split
    · simp
    · split
      · simp
      · split <;> simp
  · intro oc2 bootOk2 h1 h2 hb
    rw [client_mode_eq oc2 bootOk2, h1, h2, hb]
  · intro hf1 hb1 hf2
    rw [hf1, hb1, hf2]
    norm_num
    cases h2 : oc 2 <;> simp [failResult]

/-- Witness for C5: both attempts fail to connect, the bootstrap
succeeds; the run fails with the connect diagnostic after exactly 2
attempts and 1 bootstrap. -/
theorem attempt_budget_two_witness :
    attemptFails ((fun _ : Nat => ConnectOutcome.noConn) 1) = true ∧
    ((client_mode (fun _ => .noConn) (fun _ => true)).result = .errConnect ∨
      (client_mode (fun _ => .noConn) (fun _ => true)).result = .errHandshake) ∧
    (client_mode (fun _ => .noConn) (fun _ => true)).attempts = 2 ∧
    (client_mode (fun _ => .noConn) (fun _ => true)).boots = 1 :=
  ⟨by decide,
    (attempt_budget_two (fun _ => .noConn) (fun _ => true)).2.2.2
      (by decide) rfl (by decide)⟩

/-! ### C6 -/

/-- C6: the client handshake check rejects a timed-out read, a failed
`read_exact` (which is what a short read produces), and any 6 bytes
other than "READY\n" alike; two attempt-outcome sequences the check
classifies identically produce identical runs (each rejection
transitions to bootstrap exactly when an attempt remains); and on an
exhausted budget the terminal failure distinguishes a connect failure
from a handshake failure, with distinct diagnostics. -/
theorem handshake_contract (oc : Nat → ConnectOutcome) (bootOk : Nat → Bool) :
    handshakeAccepted .timedOut = false ∧
    handshakeAccepted .ioErr = false ∧
    (∀ b : List Nat, b ≠ readyBytes → handshakeAccepted (.bytes b) = false) ∧
    (∀ oc2, (∀ a, sameShape (oc a) (oc2 a)) →
      client_mode oc bootOk = client_mode oc2 bootOk) ∧
    (attemptFails (oc 1) = true → bootOk 1 = true →
      (client_mode oc bootOk).boots = 1 ∧
      (oc 2 = .noConn → (client_mode oc bootOk).result = .errConnect) ∧
      (∀ h, oc 2 = .conn h → handshakeAccepted h = false →
        (client_mode oc bootOk).result = .errHandshake)) ∧
    clientErrMsg .errConnect ≠ clientErrMsg .errHandshake := by
  refine ⟨rfl, rfl, ?_, ?_, ?_, by decide⟩
  · intro b hb
    simpa [handshakeAccepted] using hb
  · intro oc2 hsh
    have hfail : ∀ a, attemptFails (oc a) = attemptFails (oc2 a) := by
      intro a
      have := hsh a
      cases ho : oc a <;> cases ho2 : oc2 a <;>
        simp_all [sameShape, attemptFails]
    have hfr : attemptFails (oc 2) = true → failResult (oc 2) = failResult (oc2 2) := by
      intro _
      have := hsh 2
      cases ho : oc 2 <;> cases ho2 : oc2 2 <;> simp_all [sameShape, failResult]
    rw [client_mode_eq, client_mode_eq, hfail 1, hfail 2]
    split
    · rfl
    · split
      · rfl
      · split
        · rfl
        · rename_i hf1 hb hf2
          have h2t : attemptFails (oc2 2) = true := by
            revert hf2
            cases attemptFails (oc2 2) <;> simp
          rw [hfr (by rw [hfail 2]; exact h2t)]
  · intro hf1 hb1
    rw [client_mode_eq, hf1, hb1]
    simp only [Bool.true_eq_false, if_false]
    refine ⟨?_, ?_, ?_⟩
    · split <;> rfl
    · intro h2
      rw [h2]
      simp [attemptFails, failResult]
    · intro h h2 hh
      rw [h2]
      simp [attemptFails, failResult, hh]

/-- Witness for C6: an attempt sequence of connect-failure then a
mismatched 6-byte handshake, against one of connect-failure then a
timed-out handshake: both runs coincide and end with the handshake
diagnostic. -/
theorem handshake_contract_witness :
    client_mode
        (fun a => if a = 1 then .noConn else .conn (.bytes [0, 0, 0, 0, 0, 0]))
        (fun _ => true) =
      client_mode (fun a => if a = 1 then .noConn else .conn .timedOut)
        (fun _ => true) ∧
    (client_mode (fun a => if a = 1 then .noConn else .conn .timedOut)
        (fun _ => true)).result = .errHandshake :=
  ⟨(handshake_contract
        (fun a => if a = 1 then .noConn else .conn (.bytes [0, 0, 0, 0, 0, 0]))
        (fun _ => true)).2.2.2.1
      (fun a => if a = 1 then .noConn else .conn .timedOut)
      (by
        intro a
        by_cases ha : a = 1 <;> simp [ha, sameShape, handshakeAccepted, readyBytes]),
    ((handshake_contract (fun a => if a = 1 then .noConn else .conn .timedOut)
          (fun _ => true)).2.2.2.2.1 (by decide) rfl).2.2 .timedOut
      (by decide) rfl⟩

/-! ### C9 -/

/-- Counterexample to C9 as stated: an environment in which the spawn
succeeds and the wait would report a clean exit, but the first stdin
write fails (e.g. the collaborator exits at once and the pipe breaks),
makes `bootstrap_server` return an error — yet the claim, whose only
fatal outcomes are spawn and wait failures, requires this "other
outcome" to return success. -/
theorem bootstrap_stdin_failure_cex :
    ¬ ((⟨true, false, true, true, .exited true⟩ : BootstrapEnv).spawnOk = true →
        (⟨true, false, true, true, .exited true⟩ : BootstrapEnv).waitOutcome ≠
          .waitErr →
        (bootstrap_server ⟨true, false, true, true, .exited true⟩).1 = .ok () ∧
        .settleSleep 5 ∈
          (bootstrap_server ⟨true, false, true, true, .exited true⟩).2) := by
  intro h
  have h2 := (h rfl (by decide)).1
  simp [bootstrap_server] at h2

/-- C9 (amended): a Bootstrap invocation that cannot spawn the
collaborator, cannot write the command script to its stdin, or cannot
wait on it is fatal; every outcome in which the spawn and the stdin
writes succeed and the wait does not error — including a non-zero exit
status and a hang past the 15-second internal timeout — returns
success, with the fixed 5-second settle delay performed; and the two
fatal families spawn-failure and wait-failure indeed yield errors with
no settle delay performed on the spawn-failure path. -/
theorem bootstrap_fatal_vs_success (env : BootstrapEnv)
    (hs : env.spawnOk = true) (h1 : env.writeCmdOk = true)
    (h2 : env.writeNewlineOk = true) (h3 : env.writeExitOk = true)
    (hw : env.waitOutcome ≠ .waitErr) :
    (bootstrap_server env).1 = .ok () ∧
    .settleSleep 5 ∈ (bootstrap_server env).2 ∧
    (∀ env2 : BootstrapEnv, env2.spawnOk = false →
      (bootstrap_server env2).1 ≠ .ok () ∧
      ∀ k, .settleSleep k ∉ (bootstrap_server env2).2) ∧
    (∀ env2 : BootstrapEnv, env2.waitOutcome = .waitErr →
      env2.writeCmdOk = true → env2.writeNewlineOk = true →
      env2.writeExitOk = true → (bootstrap_server env2).1 ≠ .ok ()) ∧
    (∀ env2 : BootstrapEnv, env2.spawnOk = true →
      env2.writeCmdOk = false ∨ env2.writeNewlineOk = false ∨
        env2.writeExitOk = false →
      (bootstrap_server env2).1 ≠ .ok ()) := by
  obtain ⟨s0, w1, w2, w3, wo⟩ := env
  simp only at hs h1 h2 h3 hw
  subst hs h1 h2 h3
  refine ⟨?_, ?_, ?_, ?_, ?_⟩
  · cases wo with
    | exited ok => rfl
    | waitErr => exact absurd rfl hw
    | timedOut => rfl
  · cases wo with
    | exited ok => simp [bootstrap_server]
    | waitErr => exact absurd rfl hw
    | timedOut => simp [bootstrap_server]
  · rintro ⟨s2, u1, u2, u3, uo⟩ hsf
    simp only at hsf
    subst hsf
    exact ⟨by simp [bootstrap_server], by intro k; simp [bootstrap_server]⟩
  · rintro ⟨s2, u1, u2, u3, uo⟩ hwo hu1 hu2 hu3
    simp only at hwo hu1 hu2 hu3
    subst hwo hu1 hu2 hu3
    cases s2 <;> simp [bootstrap_server]
  · rintro ⟨s2, u1, u2, u3, uo⟩ hs2 hbad
    simp only at hs2 hbad
    subst hs2
    cases u1 <;> cases u2 <;> cases u3 <;> simp_all [bootstrap_server]

/-- Witness for C9 (amended): the collaborator exits with non-zero
status; bootstrap still succeeds and performs the 5-second settle
delay. -/
theorem bootstrap_fatal_vs_success_witness :
    ((⟨true, true, true, true, .exited false⟩ : BootstrapEnv).spawnOk = true ∧
      (⟨true, true, true, true, .exited false⟩ : BootstrapEnv).waitOutcome ≠
        .waitErr) ∧
    (bootstrap_server ⟨true, true, true, true, .exited false⟩).1 = .ok () ∧
    .settleSleep 5 ∈
      (bootstrap_server ⟨true, true, true, true, .exited false⟩).2 :=
  ⟨⟨by decide, by decide⟩,
    (bootstrap_fatal_vs_success ⟨true, true, true, true, .exited false⟩
        rfl rfl rfl rfl (by decide)).1,
    (bootstrap_fatal_vs_success ⟨true, true, true, true, .exited false⟩
        rfl rfl rfl rfl (by decide)).2.1⟩

/-! ### Session choreography: history lemmas and invariants -/

theorem outChunks_append (l1 l2 : List (Src × Chunk)) :
    outChunks (l1 ++ l2) = outChunks l1 ++ outChunks l2 := by
  simp [outChunks]

theorem errChunks_append (l1 l2 : List (Src × Chunk)) :
    errChunks (l1 ++ l2) = errChunks l1 ++ errChunks l2 := by
  simp [errChunks]

theorem outChunks_sout (c : Chunk) : outChunks [(Src.sout, c)] = [c] := rfl

theorem outChunks_serr (c : Chunk) : outChunks [(Src.serr, c)] = [] := rfl

theorem errChunks_sout (c : Chunk) : errChunks [(Src.sout, c)] = [] := rfl

theorem errChunks_serr (c : Chunk) : errChunks [(Src.serr, c)] = [c] := rfl

/-- Invariant of every reachable session state (child output chunk
sequences `A` and `B`): delivery is a prefix of the send history, which
itself tracks production, and production is a prefix of the child's
output. -/
structure GInv (A B : List Chunk) (s : Sess) : Prop where
  deliv_sent : s.delivered <+: s.sent
  chan_hist : s.writerDone = false → s.delivered ++ s.chan = s.sent
  sent_out : outChunks s.sent <+: s.prodOut
  sent_err : errChunks s.sent <+: s.prodErr
  pipe_out : s.outDone = false → outChunks s.sent ++ s.outPipe = s.prodOut
  pipe_err : s.errDone = false → errChunks s.sent ++ s.errPipe = s.prodErr
  hist_out : s.prodOut ++ s.outFut <+: A
  hist_err : s.prodErr ++ s.errFut <+: B

/-- Every session step preserves the general invariant. -/
theorem stepSess_ginv {A B : List Chunk} {l : SLabel} {s s2 : Sess}
    (h : stepSess l s = some s2) (inv : GInv A B s) : GInv A B s2 := by
  obtain ⟨d1, d2, d3, d4, d5, d6, d7, d8⟩ := inv
  cases l with
  | childOut =>
    simp only [stepSess] at h
    split at h
    · rename_i c rest hof
      split at h
      · injection h with h
        subst h
        refine ⟨d1, d2, ?_, d4, ?_, d6, ?_, d8⟩
        · exact d3.trans (List.prefix_append _ _)
        · intro ho
          show outChunks s.sent ++ (s.outPipe ++ [c]) = s.prodOut ++ [c]
          rw [← List.append_assoc, d5 ho]
        · show (s.prodOut ++ [c]) ++ rest <+: A
          have h7 := d7
          rw [hof] at h7
          simpa [List.append_assoc] using h7
      · exact absurd h (by simp)
    · exact absurd h (by simp)
  | childErr =>
    simp only [stepSess] at h
    split at h
    · rename_i c rest hof
      split at h
      · injection h with h
        subst h
        refine ⟨d1, d2, d3, ?_, d5, ?_, d7, ?_⟩
        · exact d4.trans (List.prefix_append _ _)
        · intro he
          show errChunks s.sent ++ (s.errPipe ++ [c]) = s.prodErr ++ [c]
          rw [← List.append_assoc, d6 he]
        · show (s.prodErr ++ [c]) ++ rest <+: B
          have h8 := d8
          rw [hof] at h8
          simpa [List.append_assoc] using h8
      · exact absurd h (by simp)
    · exact absurd h (by simp)
  | readOut =>
    simp only [stepSess] at h
    split at h
    · exact absurd h (by simp)
    · rename_i hod
      have hod2 : s.outDone = false := by
        revert hod
        cases s.outDone <;> simp
      split at h
      · rename_i c rest hop
        split at h
        · injection h with h
          subst h
          exact ⟨d1, d2, d3, d4, fun ho => Bool.noConfusion ho, d6, d7, d8⟩
        · split at h
          · injection h with h
            subst h
            have hpk : outChunks s.sent ++ (c :: rest) = s.prodOut := by
              rw [← hop]
              exact d5 hod2
            refine ⟨?_, ?_, ?_, ?_, ?_, ?_, d7, d8⟩
            · exact d1.trans (List.prefix_append _ _)
            · intro hw
              show s.delivered ++ (s.chan ++ [(Src.sout, c)]) =
                s.sent ++ [(Src.sout, c)]
              rw [← List.append_assoc, d2 hw]
            · show outChunks (s.sent ++ [(Src.sout, c)]) <+: s.prodOut
              rw [outChunks_append, outChunks_sout]
              exact ⟨rest, by rw [List.append_assoc, List.singleton_append, hpk]⟩
            · show errChunks (s.sent ++ [(Src.sout, c)]) <+: s.prodErr
              rw [errChunks_append, errChunks_sout, List.append_nil]
              exact d4
            · intro ho
              show outChunks (s.sent ++ [(Src.sout, c)]) ++ rest = s.prodOut
              rw [outChunks_append, outChunks_sout, List.append_assoc,
                List.singleton_append, hpk]
            · intro he
              show errChunks (s.sent ++ [(Src.sout, c)]) ++ s.errPipe = s.prodErr
              rw [errChunks_append, errChunks_sout, List.append_nil]
              exact d6 he
          · exact absurd h (by simp)
      · exact absurd h (by simp)
  | outEof =>
    simp only [stepSess] at h
    split at h
    · injection h with h
      subst h
      exact ⟨d1, d2, d3, d4, fun ho => Bool.noConfusion ho, d6, d7, d8⟩
    · exact absurd h (by simp)
  | readErr =>
    simp only [stepSess] at h
    split at h
    · exact absurd h (by simp)
    · rename_i hed
      have hed2 : s.errDone = false := by
        revert hed
        cases s.errDone <;> simp
      split at h
      · rename_i c rest hep
        split at h
        · injection h with h
          subst h
          exact ⟨d1, d2, d3, d4, d5, fun he => Bool.noConfusion he, d7, d8⟩
        · split at h
          · injection h with h
            subst h
            have hpk : errChunks s.sent ++ (c :: rest) = s.prodErr := by
              rw [← hep]
              exact d6 hed2
            refine ⟨?_, ?_, ?_, ?_, ?_, ?_, d7, d8⟩
            · exact d1.trans (List.prefix_append _ _)
            · intro hw
              show s.delivered ++ (s.chan ++ [(Src.serr, c)]) =
                s.sent ++ [(Src.serr, c)]
              rw [← List.append_assoc, d2 hw]
            · show outChunks (s.sent ++ [(Src.serr, c)]) <+: s.prodOut
              rw [outChunks_append, outChunks_serr, List.append_nil]
              exact d3
            · show errChunks (s.sent ++ [(Src.serr, c)]) <+: s.prodErr
              rw [errChunks_append, errChunks_serr]
              exact ⟨rest, by rw [List.append_assoc, List.singleton_append, hpk]⟩
            · intro ho
              show outChunks (s.sent ++ [(Src.serr, c)]) ++ s.outPipe = s.prodOut
              rw [outChunks_append, outChunks_serr, List.append_nil]
              exact d5 ho
            · intro he
              show errChunks (s.sent ++ [(Src.serr, c)]) ++ rest = s.prodErr
              rw [errChunks_append, errChunks_serr, List.append_assoc,
                List.singleton_append, hpk]
          · exact absurd h (by simp)
      · exact absurd h (by simp)
  | errEof =>
    simp only [stepSess] at h
    split at h
    · injection h with h
      subst h
      exact ⟨d1, d2, d3, d4, d5, fun he => Bool.noConfusion he, d7, d8⟩
    · exact absurd h (by simp)
  | writeChunk ok =>
    simp only [stepSess] at h
    split at h
    · exact absurd h (by simp)
    · rename_i hwd
      have hwd2 : s.writerDone = false := by
        revert hwd
        cases s.writerDone <;> simp
      split at h
      · rename_i c rest hch
        have hck : s.delivered ++ (c :: rest) = s.sent := by
          rw [← hch]
          exact d2 hwd2
        split at h
        · injection h with h
          subst h
          refine ⟨?_, ?_, d3, d4, d5, d6, d7, d8⟩
          · exact ⟨rest, by rw [List.append_assoc, List.singleton_append, hck]⟩
          · intro hw
            show (s.delivered ++ [c]) ++ rest = s.sent
            rw [List.append_assoc, List.singleton_append, hck]
        · injection h with h
          subst h
          exact ⟨d1, fun hw => Bool.noConfusion hw, d3, d4, d5, d6, d7, d8⟩
      · exact absurd h (by simp)
  | recvNone =>
    simp only [stepSess] at h
    split at h
    · injection h with h
      subst h
      exact ⟨d1, fun hw => Bool.noConfusion hw, d3, d4, d5, d6, d7, d8⟩
    · exact absurd h (by simp)
  | disconnect =>
    injection h with h
    subst h
    exact ⟨d1, d2, d3, d4, d5, d6, d7, d8⟩
  | childExit =>
    simp only [stepSess] at h
    split at h
    · injection h with h
      subst h
      exact ⟨d1, d2, d3, d4, d5, d6, d7, d8⟩
    · exact absurd h (by simp)
  | selectExit =>
    simp only [stepSess] at h
    split at h
    · injection h with h
      subst h
      exact ⟨d1, d2, d3, d4, d5, d6, d7, d8⟩
    · exact absurd h (by simp)
  | selectKill =>
    simp only [stepSess] at h
    split at h
    · injection h with h
      subst h
      refine ⟨d1, d2, d3, d4, d5, d6, ?_, ?_⟩
      · show s.prodOut ++ [] <+: A
        rw [List.append_nil]
        exact (List.prefix_append _ _).trans d7
      · show s.prodErr ++ [] <+: B
        rw [List.append_nil]
        exact (List.prefix_append _ _).trans d8
    · exact absurd h (by simp)

/-- The general invariant holds along every schedule. -/
theorem runSess_ginv {A B : List Chunk} {ls : List SLabel} {s s2 : Sess}
    (h : runSess ls s = some s2) (inv : GInv A B s) : GInv A B s2 := by
  induction ls generalizing s with
  | nil =>
    simp only [runSess] at h
    injection h with h
    subst h
    exact inv
  | cons l rest ih =>
    simp only [runSess] at h
    cases hst : stepSess l s with
    | none => rw [hst] at h; exact absurd h (by simp)
    | some s3 =>
      rw [hst] at h
      exact ih h (stepSess_ginv hst inv)

/-- The general invariant holds initially. -/
theorem ginv_init (A B : List Chunk) : GInv A B (initSess A B) := by
  refine ⟨?_, ?_, ?_, ?_, ?_, ?_, ?_, ?_⟩ <;>
    simp [initSess, outChunks, errChunks]

/-! ### C4 -/

/-- C4: in every reachable session state, the chunk sequence delivered
to the client is a prefix of the channel-send history (so delivery
follows exactly the order in which completed reads appended chunks to
the transcript channel), and the stdout (resp. stderr) chunks of the
delivered sequence form a prefix of the child's stdout (resp. stderr)
chunk sequence — neither stream is ever reordered internally. -/
theorem transcript_order (A B : List Chunk) (ls : List SLabel) (s : Sess)
    (h : runSess ls (initSess A B) = some s) :
    s.delivered <+: s.sent ∧
    outChunks s.delivered <+: A ∧
    errChunks s.delivered <+: B := by
  have inv := runSess_ginv h (ginv_init A B)
  have hdo : outChunks s.delivered <+: outChunks s.sent :=
    (inv.deliv_sent.filter _).map _
  have hde : errChunks s.delivered <+: errChunks s.sent :=
    (inv.deliv_sent.filter _).map _
  refine ⟨inv.deliv_sent, ?_, ?_⟩
  · exact hdo.trans (inv.sent_out.trans
      ((List.prefix_append _ _).trans inv.hist_out))
  · exact hde.trans (inv.sent_err.trans
      ((List.prefix_append _ _).trans inv.hist_err))

/-- Witness for C4: a concrete schedule delivering one stdout chunk,
with the ordering conclusions evaluated. -/
theorem transcript_order_witness :
    runSess [.childOut, .readOut, .writeChunk true, .childExit, .outEof,
        .errEof, .recvNone, .selectExit] (initSess [[1]] []) =
      some { outFut := [], errFut := [], outPipe := [], errPipe := [],
             prodOut := [[1]], prodErr := [], chan := [],
             sent := [(Src.sout, [1])], delivered := [(Src.sout, [1])],
             outDone := true, errDone := true, writerDone := true,
             killReq := false, exited := true, killed := false,
             mainResolved := true } ∧
    ([(Src.sout, [1])] : List (Src × Chunk)) <+: [(Src.sout, [1])] ∧
    outChunks [(Src.sout, [1])] <+: [[1]] ∧
    errChunks [(Src.sout, [1])] <+: [] :=
  ⟨by decide,
    transcript_order [[1]] []
      [.childOut, .readOut, .writeChunk true, .childExit, .outEof, .errEof,
        .recvNone, .selectExit]
      { outFut := [], errFut := [], outPipe := [], errPipe := [],
        prodOut := [[1]], prodErr := [], chan := [],
        sent := [(Src.sout, [1])], delivered := [(Src.sout, [1])],
        outDone := true, errDone := true, writerDone := true,
        killReq := false, exited := true, killed := false,
        mainResolved := true }
      (by decide)⟩

/-- `kill_notify`, once notified, stays notified across any step. -/
theorem stepSess_killReq {l : SLabel} {s s2 : Sess}
    (h : stepSess l s = some s2) (hk : s.killReq = true) : s2.killReq = true := by
  cases l <;> simp only [stepSess] at h <;>
    (repeat' split at h) <;>
    first
      | (injection h with h; subst h; first | exact hk | rfl)
      | injection h

/-- `kill_notify`, once notified, stays notified along any schedule. -/
theorem runSess_killReq {ls : List SLabel} {s s2 : Sess}
    (h : runSess ls s = some s2) (hk : s.killReq = true) : s2.killReq = true := by
  induction ls generalizing s with
  | nil =>
    simp only [runSess] at h
    injection h with h
    subst h
    exact hk
  | cons l rest ih =>
    simp only [runSess] at h
    cases hst : stepSess l s with
    | none => rw [hst] at h; exact absurd h (by simp)
    | some s3 =>
      rw [hst] at h
      exact ih h (stepSess_killReq hst hk)

/-- Running a concatenated schedule runs its parts in sequence. -/
theorem runSess_append (l1 l2 : List SLabel) (s : Sess) :
    runSess (l1 ++ l2) s =
      match runSess l1 s with
      | some s2 => runSess l2 s2
      | none => none := by
  induction l1 generalizing s with
  | nil => simp [runSess]
  | cons l rest ih =>
    simp only [List.cons_append, runSess]
    cases stepSess l s with
    | none => rfl
    | some s3 => exact ih s3

/-- In a schedule with no natural child exit, the child never reaches
the exited state, and the resolved `select!` can only have taken the
kill arm. -/
theorem runSess_no_exit {ls : List SLabel} {s s2 : Sess}
    (h : runSess ls s = some s2) (hni : SLabel.childExit ∉ ls)
    (he : s.exited = false) (hm : s.mainResolved = true → s.killed = true) :
    s2.exited = false ∧ (s2.mainResolved = true → s2.killed = true) := by
  induction ls generalizing s with
  | nil =>
    simp only [runSess] at h
    injection h with h
    subst h
    exact ⟨he, hm⟩
  | cons l rest ih =>
    simp only [List.mem_cons, not_or] at hni
    simp only [runSess] at h
    cases hst : stepSess l s with
    | none => rw [hst] at h; exact absurd h (by simp)
    | some s3 =>
      rw [hst] at h
      refine ih h hni.2 ?_ ?_
      · cases l with
        | childExit => exact absurd rfl hni.1
        | _ =>
          simp only [stepSess] at hst
          repeat' split at hst
          all_goals
            first
              | (injection hst with hst; subst hst; exact he)
              | injection hst
      · cases l with
        | childExit => exact absurd rfl hni.1
        | selectExit =>
          simp only [stepSess] at hst
          split at hst
          · rename_i hg
            rw [he] at hg
            simp at hg
          · exact absurd hst (by simp)
        | selectKill =>
          simp only [stepSess] at hst
          split at hst
          · injection hst with hst
            subst hst
            exact fun _ => rfl
          · exact absurd hst (by simp)
        | _ =>
          simp only [stepSess] at hst
          repeat' split at hst
          all_goals
            first
              | (injection hst with hst; subst hst; exact hm)
              | injection hst

/-- A dead child produces nothing: any step from a state with
`killed = true` leaves both production histories unchanged. -/
theorem killed_no_production {l : SLabel} {t t2 : Sess}
    (h : stepSess l t = some t2) (hk : t.killed = true) :
    t2.prodOut = t.prodOut ∧ t2.prodErr = t.prodErr := by
  cases l with
  | childOut =>
    simp only [stepSess] at h
    split at h
    · split at h
      · rename_i hal
        simp [Sess.alive, hk] at hal
      · exact absurd h (by simp)
    · exact absurd h (by simp)
  | childErr =>
    simp only [stepSess] at h
    split at h
    · split at h
      · rename_i hal
        simp [Sess.alive, hk] at hal
      · exact absurd h (by simp)
    · exact absurd h (by simp)
  | _ =>
    simp only [stepSess] at h
    repeat' split at h
    all_goals
      first
        | (injection h with h; subst h; exact ⟨rfl, rfl⟩)
        | injection h

/-! ### C2 -/

/-- C2: in every completed session whose schedule contains a client
disconnect and no natural child exit (the child was still running when
the connection closed), the disconnect signal is set, the forced kill
was issued, every delivered stdout/stderr chunk is one the child
produced before its death, and — since no step from a killed state
extends either production history — the child produces no output after
the kill, so no post-kill chunk can reach the connection. -/
theorem disconnect_forces_kill (A B : List Chunk) (ls : List SLabel) (s : Sess)
    (h : runSess ls (initSess A B) = some s)
    (hc : s.isComplete = true)
    (hd : SLabel.disconnect ∈ ls)
    (hx : SLabel.childExit ∉ ls) :
    s.killReq = true ∧
    s.killed = true ∧
    outChunks s.delivered <+: s.prodOut ∧
    errChunks s.delivered <+: s.prodErr ∧
    (∀ (l : SLabel) (t t2 : Sess), stepSess l t = some t2 →
      t.killed = true → t2.prodOut = t.prodOut ∧ t2.prodErr = t.prodErr) := by
  have inv := runSess_ginv h (ginv_init A B)
  have hkilled : s.killed = true := by
    have hne := runSess_no_exit h hx rfl (fun hm => Bool.noConfusion hm)
    have hmr : s.mainResolved = true := by
      simp only [Sess.isComplete, Bool.and_eq_true] at hc
      exact hc.1.1.1
    exact hne.2 hmr
  have hkreq : s.killReq = true := by
    obtain ⟨l1, l2, rfl⟩ := List.append_of_mem hd
    rw [runSess_append] at h
    cases h1 : runSess l1 (initSess A B) with
    | none => rw [h1] at h; exact absurd h (by simp)
    | some m1 =>
      rw [h1] at h
      simp only [runSess] at h
      cases h2 : stepSess SLabel.disconnect m1 with
      | none => rw [h2] at h; exact absurd h (by simp)
      | some m2 =>
        rw [h2] at h
        have hm2 : m2.killReq = true := by
          injection h2 with h2
          subst h2
          rfl
        exact runSess_killReq h hm2
  refine ⟨hkreq, hkilled, ?_, ?_, fun l t t2 hstep hkt =>
    killed_no_production hstep hkt⟩
  · exact ((inv.deliv_sent.filter _).map _).trans inv.sent_out
  · exact ((inv.deliv_sent.filter _).map _).trans inv.sent_err

/-- Witness for C2: the client disconnects after the first chunk; the
kill arm resolves the race and the session completes with the child
killed. -/
theorem disconnect_forces_kill_witness :
    (runSess [.childOut, .readOut, .writeChunk true, .disconnect,
        .selectKill, .outEof, .errEof, .recvNone] (initSess [[1], [2]] []) =
      some { outFut := [], errFut := [], outPipe := [], errPipe := [],
             prodOut := [[1]], prodErr := [], chan := [],
             sent := [(Src.sout, [1])], delivered := [(Src.sout, [1])],
             outDone := true, errDone := true, writerDone := true,
             killReq := true, exited := false, killed := true,
             mainResolved := true } ∧
      SLabel.disconnect ∈ [SLabel.childOut, .readOut, .writeChunk true,
        .disconnect, .selectKill, .outEof, .errEof, .recvNone] ∧
      SLabel.childExit ∉ [SLabel.childOut, .readOut, .writeChunk true,
        .disconnect, .selectKill, .outEof, .errEof, .recvNone]) ∧
    ({ outFut := [], errFut := [], outPipe := [], errPipe := [],
       prodOut := [[1]], prodErr := [], chan := [],
       sent := [(Src.sout, [1])], delivered := [(Src.sout, [1])],
       outDone := true, errDone := true, writerDone := true,
       killReq := true, exited := false, killed := true,
       mainResolved := true } : Sess).killed = true :=
  ⟨⟨by decide, by decide, by decide⟩,
    (disconnect_forces_kill [[1], [2]] []
      [.childOut, .readOut, .writeChunk true, .disconnect, .selectKill,
        .outEof, .errEof, .recvNone]
      { outFut := [], errFut := [], outPipe := [], errPipe := [],
        prodOut := [[1]], prodErr := [], chan := [],
        sent := [(Src.sout, [1])], delivered := [(Src.sout, [1])],
        outDone := true, errDone := true, writerDone := true,
        killReq := true, exited := false, killed := true,
        mainResolved := true }
      (by decide) (by decide) (by decide) (by decide)).2.1⟩

/-- Invariant of sessions in which the client never disconnects and
every socket write succeeds: nothing is ever lost — the channel history
equals delivery plus queue, a finished reader has sent its stream
completely, and no kill can occur. -/
structure RInv (A B : List Chunk) (s : Sess) : Prop where
  kq : s.killReq = false
  kl : s.killed = false
  wd : s.writerDone = true →
    s.outDone = true ∧ s.errDone = true ∧ s.chan = [] ∧ s.delivered = s.sent
  ch : s.delivered ++ s.chan = s.sent
  ex : s.exited = true → s.outFut = [] ∧ s.errFut = []
  oe : s.outDone = true → outChunks s.sent = A
  ee : s.errDone = true → errChunks s.sent = B
  oc : s.outDone = false → outChunks s.sent ++ s.outPipe ++ s.outFut = A
  ec : s.errDone = false → errChunks s.sent ++ s.errPipe ++ s.errFut = B

/-- Every lossless step (no disconnect, no failing write) preserves the
lossless-session invariant. -/
theorem stepSess_rinv {A B : List Chunk} {l : SLabel} {s s2 : Sess}
    (h : stepSess l s = some s2) (hcl : clientKeeps l = true)
    (inv : RInv A B s) : RInv A B s2 := by
  obtain ⟨r1, r2, r3, r4, r5, r6, r7, r8, r9⟩ := inv
  cases l with
  | childOut =>
    simp only [stepSess] at h
    split at h
    · rename_i c rest hof
      split at h
      · rename_i hal
        simp only [Sess.alive, Bool.and_eq_true, Bool.not_eq_true'] at hal
        injection h with h
        subst h
        refine ⟨r1, r2, r3, r4, ?_, r6, r7, ?_, r9⟩
        · intro hex
          rw [hal.1] at hex
          exact Bool.noConfusion hex
        · intro ho
          have hh := r8 ho
          rw [hof] at hh
          show outChunks s.sent ++ (s.outPipe ++ [c]) ++ rest = A
          simpa [List.append_assoc] using hh
      · exact absurd h (by simp)
    · exact absurd h (by simp)
  | childErr =>
    simp only [stepSess] at h
    split at h
    · rename_i c rest hof
      split at h
      · rename_i hal
        simp only [Sess.alive, Bool.and_eq_true, Bool.not_eq_true'] at hal
        injection h with h
        subst h
        refine ⟨r1, r2, r3, r4, ?_, r6, r7, r8, ?_⟩
        · intro hex
          rw [hal.1] at hex
          exact Bool.noConfusion hex
        · intro he
          have hh := r9 he
          rw [hof] at hh
          show errChunks s.sent ++ (s.errPipe ++ [c]) ++ rest = B
          simpa [List.append_assoc] using hh
      · exact absurd h (by simp)
    · exact absurd h (by simp)
  | readOut =>
    simp only [stepSess] at h
    split at h
    · exact absurd h (by simp)
    · rename_i hod
      split at h
      · rename_i c rest hop
        split at h
        · rename_i hwd
          exact absurd (r3 hwd).1 hod
        · split at h
          · rename_i hwr hroom
            injection h with h
            subst h
            refine ⟨r1, r2, ?_, ?_, r5, ?_, ?_, ?_, ?_⟩
            · intro hw
              exact absurd hw hwr
            · show s.delivered ++ (s.chan ++ [(Src.sout, c)]) =
                s.sent ++ [(Src.sout, c)]
              rw [← List.append_assoc, r4]
            · intro ho
              exact absurd ho hod
            · intro he
              show errChunks (s.sent ++ [(Src.sout, c)]) = B
              rw [errChunks_append, errChunks_sout, List.append_nil]
              exact r7 he
            · intro ho
              have hod2 : s.outDone = false := by
                revert hod
                cases s.outDone <;> simp
              have hh := r8 hod2
              rw [hop] at hh
              show outChunks (s.sent ++ [(Src.sout, c)]) ++ rest ++ s.outFut = A
              rw [outChunks_append, outChunks_sout]
              simpa [List.append_assoc] using hh
            · intro he
              show errChunks (s.sent ++ [(Src.sout, c)]) ++ s.errPipe ++
                s.errFut = B
              rw [errChunks_append, errChunks_sout, List.append_nil]
              exact r9 he
          · exact absurd h (by simp)
      · exact absurd h (by simp)
  | outEof =>
    simp only [stepSess] at h
    split at h
    · rename_i hg
      simp only [Bool.and_eq_true, Bool.not_eq_true'] at hg
      obtain ⟨⟨hod, hpe⟩, hdead⟩ := hg
      have hex : s.exited = true := by
        rw [r2] at hdead
        simpa using hdead
      have hpipe : s.outPipe = [] := List.isEmpty_iff.mp hpe
      have hfut := (r5 hex).1
      injection h with h
      subst h
      refine ⟨r1, r2, ?_, r4, r5, ?_, r7, ?_, r9⟩
      · intro hw
        obtain ⟨ho2, he2, hc2, hd2⟩ := r3 hw
        exact ⟨rfl, he2, hc2, hd2⟩
      · intro _
        have hh := r8 hod
        rw [hpipe, hfut] at hh
        simpa using hh
      · intro ho
        exact Bool.noConfusion ho
    · exact absurd h (by simp)
  | readErr =>
    simp only [stepSess] at h
    split at h
    · exact absurd h (by simp)
    · rename_i hed
      split at h
      · rename_i c rest hep
        split at h
        · rename_i hwd
          exact absurd (r3 hwd).2.1 hed
        · split at h
          · rename_i hwr hroom
            injection h with h
            subst h
            refine ⟨r1, r2, ?_, ?_, r5, ?_, ?_, ?_, ?_⟩
            · intro hw
              exact absurd hw hwr
            · show s.delivered ++ (s.chan ++ [(Src.serr, c)]) =
                s.sent ++ [(Src.serr, c)]
              rw [← List.append_assoc, r4]
            · intro ho
              show outChunks (s.sent ++ [(Src.serr, c)]) = A
              rw [outChunks_append, outChunks_serr, List.append_nil]
              exact r6 ho
            · intro he
              exact absurd he hed
            · intro ho
              show outChunks (s.sent ++ [(Src.serr, c)]) ++ s.outPipe ++
                s.outFut = A
              rw [outChunks_append, outChunks_serr, List.append_nil]
              exact r8 ho
            · intro he
              have hed2 : s.errDone = false := by
                revert hed
                cases s.errDone <;> simp
              have hh := r9 hed2
              rw [hep] at hh
              show errChunks (s.sent ++ [(Src.serr, c)]) ++ rest ++ s.errFut = B
              rw [errChunks_append, errChunks_serr]
              simpa [List.append_assoc] using hh
          · exact absurd h (by simp)
      · exact absurd h (by simp)
  | errEof =>
    simp only [stepSess] at h
    split at h
    · rename_i hg
      simp only [Bool.and_eq_true, Bool.not_eq_true'] at hg
      obtain ⟨⟨hed, hpe⟩, hdead⟩ := hg
      have hex : s.exited = true := by
        rw [r2] at hdead
        simpa using hdead
      have hpipe : s.errPipe = [] := List.isEmpty_iff.mp hpe
      have hfut := (r5 hex).2
      injection h with h
      subst h
      refine ⟨r1, r2, ?_, r4, r5, r6, ?_, r8, ?_⟩
      · intro hw
        obtain ⟨ho2, he2, hc2, hd2⟩ := r3 hw
        exact ⟨ho2, rfl, hc2, hd2⟩
      · intro _
        have hh := r9 hed
        rw [hpipe, hfut] at hh
        simpa using hh
      · intro he
        exact Bool.noConfusion he
    · exact absurd h (by simp)
  | writeChunk ok =>
    have hok : ok = true := by simpa [clientKeeps] using hcl
    subst hok
    simp only [stepSess, reduceIte] at h
    split at h
    · exact absurd h (by simp)
    · rename_i hwr
      split at h
      · rename_i c rest hch
        injection h with h
        subst h
        refine ⟨r1, r2, ?_, ?_, r5, r6, r7, r8, r9⟩
        · intro hw
          exact absurd hw hwr
        · show (s.delivered ++ [c]) ++ rest = s.sent
          rw [List.append_assoc, List.singleton_append, ← hch]
          exact r4
      · exact absurd h (by simp)
  | recvNone =>
    simp only [stepSess] at h
    split at h
    · rename_i hg
      simp only [Bool.and_eq_true, Bool.not_eq_true'] at hg
      obtain ⟨⟨⟨hwr, hce⟩, hodt⟩, hedt⟩ := hg
      have hchan : s.chan = [] := List.isEmpty_iff.mp hce
      injection h with h
      subst h
      refine ⟨r1, r2, ?_, r4, r5, r6, r7, r8, r9⟩
      intro _
      refine ⟨hodt, hedt, hchan, ?_⟩
      have hh := r4
      rw [hchan, List.append_nil] at hh
      exact hh
    · exact absurd h (by simp)
  | disconnect => simp [clientKeeps] at hcl
  | childExit =>
    simp only [stepSess] at h
    split at h
    · rename_i hg
      simp only [Bool.and_eq_true] at hg
      obtain ⟨⟨hal, hof⟩, hef⟩ := hg
      injection h with h
      subst h
      refine ⟨r1, r2, r3, r4, ?_, r6, r7, r8, r9⟩
      intro _
      exact ⟨List.isEmpty_iff.mp hof, List.isEmpty_iff.mp hef⟩
    · exact absurd h (by simp)
  | selectExit =>
    simp only [stepSess] at h
    split at h
    · injection h with h
      subst h
      exact ⟨r1, r2, r3, r4, r5, r6, r7, r8, r9⟩
    · exact absurd h (by simp)
  | selectKill =>
    simp only [stepSess] at h
    split at h
    · rename_i hg
      simp only [Bool.and_eq_true, Bool.not_eq_true'] at hg
      rw [r1] at hg
      exact Bool.noConfusion hg.1
    · exact absurd h (by simp)

/-- The lossless invariant holds along every lossless schedule. -/
theorem runSess_rinv {A B : List Chunk} {ls : List SLabel} {s s2 : Sess}
    (h : runSess ls s = some s2) (hk : ∀ l ∈ ls, clientKeeps l = true)
    (inv : RInv A B s) : RInv A B s2 := by
  induction ls generalizing s with
  | nil =>
    simp only [runSess] at h
    injection h with h
    subst h
    exact inv
  | cons l rest ih =>
    simp only [runSess] at h
    cases hst : stepSess l s with
    | none => rw [hst] at h; exact absurd h (by simp)
    | some s3 =>
      rw [hst] at h
      exact ih h (fun l2 hl2 => hk l2 (List.mem_cons_of_mem _ hl2))
        (stepSess_rinv hst (hk l (List.mem_cons_self _ _)) inv)

/-- The lossless invariant holds initially. -/
theorem rinv_init (A B : List Chunk) : RInv A B (initSess A B) := by
  refine ⟨rfl, rfl, ?_, rfl, ?_, ?_, ?_, ?_, ?_⟩ <;>
    simp [initSess, outChunks, errChunks]

/-! ### C3 -/

/-- C3: in every completed session whose schedule contains no client
disconnect and no failing socket write (the client stays connected, so
the race is decided by natural exit), no kill is issued, and — because
the session awaits the stdout reader, the stderr reader, and the socket
writer before finishing, which is what `isComplete` requires — the
delivered sequence equals the full send history and contains exactly
the child's stdout and stderr chunk sequences. -/
theorem natural_exit_delivers_all (A B : List Chunk) (ls : List SLabel)
    (s : Sess) (h : runSess ls (initSess A B) = some s)
    (hk : ∀ l ∈ ls, clientKeeps l = true)
    (hc : s.isComplete = true) :
    s.killed = false ∧
    s.delivered = s.sent ∧
    outChunks s.delivered = A ∧
    errChunks s.delivered = B := by
  have inv := runSess_rinv h hk (rinv_init A B)
  simp only [Sess.isComplete, Bool.and_eq_true] at hc
  obtain ⟨⟨⟨hmr, hod⟩, hed⟩, hwr⟩ := hc
  have hds : s.delivered = s.sent := (inv.wd hwr).2.2.2
  refine ⟨inv.kl, hds, ?_, ?_⟩
  · rw [hds]
    exact inv.oe hod
  · rw [hds]
    exact inv.ee hed

/-- Witness for C3: a lossless schedule with one stdout chunk and one
stderr chunk; everything is delivered and no kill occurs. -/
theorem natural_exit_delivers_all_witness :
    (runSess [.childOut, .readOut, .childErr, .readErr, .writeChunk true,
        .writeChunk true, .childExit, .outEof, .errEof, .recvNone,
        .selectExit] (initSess [[5]] [[6]]) =
      some { outFut := [], errFut := [], outPipe := [], errPipe := [],
             prodOut := [[5]], prodErr := [[6]], chan := [],
             sent := [(Src.sout, [5]), (Src.serr, [6])],
             delivered := [(Src.sout, [5]), (Src.serr, [6])],
             outDone := true, errDone := true, writerDone := true,
             killReq := false, exited := true, killed := false,
             mainResolved := true } ∧
      (∀ l ∈ [SLabel.childOut, .readOut, .childErr, .readErr,
        .writeChunk true, .writeChunk true, .childExit, .outEof, .errEof,
        .recvNone, .selectExit], clientKeeps l = true)) ∧
    outChunks [(Src.sout, [5]), (Src.serr, [6])] = [[5]] ∧
    errChunks [(Src.sout, [5]), (Src.serr, [6])] = [[6]] :=
  ⟨⟨by decide, by decide⟩,
    (natural_exit_delivers_all [[5]] [[6]]
      [.childOut, .readOut, .childErr, .readErr, .writeChunk true,
        .writeChunk true, .childExit, .outEof, .errEof, .recvNone,
        .selectExit]
      { outFut := [], errFut := [], outPipe := [], errPipe := [],
        prodOut := [[5]], prodErr := [[6]], chan := [],
        sent := [(Src.sout, [5]), (Src.serr, [6])],
        delivered := [(Src.sout, [5]), (Src.serr, [6])],
        outDone := true, errDone := true, writerDone := true,
        killReq := false, exited := true, killed := false,
        mainResolved := true }
      (by decide) (by decide) (by decide)).2.2.1,
    (natural_exit_delivers_all [[5]] [[6]]
      [.childOut, .readOut, .childErr, .readErr, .writeChunk true,
        .writeChunk true, .childExit, .outEof, .errEof, .recvNone,
        .selectExit]
      { outFut := [], errFut := [], outPipe := [], errPipe := [],
        prodOut := [[5]], prodErr := [[6]], chan := [],
        sent := [(Src.sout, [5]), (Src.serr, [6])],
        delivered := [(Src.sout, [5]), (Src.serr, [6])],
        outDone := true, errDone := true, writerDone := true,
        killReq := false, exited := true, killed := false,
        mainResolved := true }
      (by decide) (by decide) (by decide)).2.2.2⟩

/-! ### C10 -/

/-- C10: once the writer task has returned (dropping the channel
receiver), a producer holding a chunk takes exactly one step — the
failed send — and terminates with nothing enqueued, regardless of how
full the channel is; by contrast, while the receiver is alive a send
into a full capacity-32 channel blocks (the step is disabled), which is
the only way a producer can wait. -/
theorem producer_never_blocks_after_writer (s : Sess) (c : Chunk)
    (rest : List Chunk) (hw : s.writerDone = true) (ho : s.outDone = false)
    (hp : s.outPipe = c :: rest) :
    stepSess .readOut s = some { s with outPipe := rest, outDone := true } ∧
    (∀ s2, stepSess .readOut s = some s2 → s2.outDone = true ∧
      s2.sent = s.sent ∧ s2.chan = s.chan ∧ s2.delivered = s.delivered) ∧
    (∀ t : Sess, t.writerDone = false → chanCapacity ≤ t.chan.length →
      stepSess .readOut t = none ∧ stepSess .readErr t = none) ∧
    (∀ (t : Sess) (c2 : Chunk) (r2 : List Chunk), t.writerDone = true →
      t.errDone = false → t.errPipe = c2 :: r2 →
      stepSess .readErr t = some { t with errPipe := r2, errDone := true }) := by
  have hstep : stepSess .readOut s =
      some { s with outPipe := rest, outDone := true } := by
    simp [stepSess, hw, ho, hp]
  refine ⟨hstep, ?_, ?_, ?_⟩
  · intro s2 h2
    rw [hstep] at h2
    injection h2 with h2
    subst h2
    exact ⟨rfl, rfl, rfl, rfl⟩
  · intro t htw hfull
    have hnr : ¬t.chan.length < chanCapacity := by omega
    constructor
    · simp only [stepSess]
      cases t.outDone with
      | true => simp
      | false =>
        simp only [Bool.false_eq_true, if_false]
        cases t.outPipe with
        | nil => rfl
        | cons c2 r2 => simp [htw, hnr]
    · simp only [stepSess]
      cases t.errDone with
      | true => simp
      | false =>
        simp only [Bool.false_eq_true, if_false]
        cases t.errPipe with
        | nil => rfl
        | cons c2 r2 => simp [htw, hnr]
  · intro t c2 r2 htw hte htp
    simp [stepSess, htw, hte, htp]

/-- Witness for C10: a state with the writer gone, a pending stdout
chunk, and a full channel; the producer's next step still succeeds and
ends the loop. -/
theorem producer_never_blocks_after_writer_witness :
    (({ initSess [] [] with
        writerDone := true, outPipe := [[7]],
        chan := List.replicate 32 (Src.sout, [0]) } : Sess).writerDone = true ∧
      ({ initSess [] [] with
        writerDone := true, outPipe := [[7]],
        chan := List.replicate 32 (Src.sout, [0]) } : Sess).outDone = false ∧
      ({ initSess [] [] with
        writerDone := true, outPipe := [[7]],
        chan := List.replicate 32 (Src.sout, [0]) } : Sess).outPipe =
        [7] :: []) ∧
    stepSess .readOut
        { initSess [] [] with
          writerDone := true, outPipe := [[7]],
          chan := List.replicate 32 (Src.sout, [0]) } =
      some { ({ initSess [] [] with
          writerDone := true, outPipe := [[7]],
          chan := List.replicate 32 (Src.sout, [0]) } : Sess) with
          outPipe := [], outDone := true } :=
  ⟨⟨rfl, rfl, rfl⟩,
    (producer_never_blocks_after_writer
      { initSess [] [] with
        writerDone := true, outPipe := [[7]],
        chan := List.replicate 32 (Src.sout, [0]) }
      [7] [] rfl rfl rfl).1⟩

end WinboatBridge
